import Mathlib

/-!
Verification development for the SSH Prometheus datasource plugin.

The definitions below are shallow embeddings of the plugin's query engine
(`pkg/plugin`: `calculateStep`, `parseInterval`, `query`, `formatLegend`,
`CheckHealth`), the frontend response transform
(`src/datasource/datasource.ts`: `transformResponse`), and the SSH tunnel
manager (`pkg/ssh/tunnel.go`: `buildAuthMethods`, `NewTunnel`,
`Tunnel.Close`, `Tunnel.IsAlive`).  Go `int64` values are modelled as `Int`
with explicit wrap-around (`i64wrap`) where user-controlled arithmetic can
overflow; strings are Lean `String`s, and byte-level operations are carried
out on their underlying `List Char` (all protocol strings involved are
ASCII).  External effects (the SSH library's key parsing, dialing and
listening, HTTP round trips) are passed in as explicit parameters or
outcome values.
-/

/-- Two's-complement wrap-around into the `int64` range, modelling Go
signed-integer overflow semantics. -/
def i64wrap (x : Int) : Int :=
  (x + 2 ^ 63) % 2 ^ 64 - 2 ^ 63

/-- Numeric value of a list of decimal digit characters (most significant
first), `none` if the list is empty or contains a non-digit. -/
def digitsVal (ds : List Char) : Option Nat :=
  if ds ≠ [] ∧ ds.all (fun c => c.isDigit) then
    some (ds.foldl (fun n c => 10 * n + (c.toNat - 48)) 0)
  else
    none

/-- `strconv.ParseInt(s, 10, 64)`: an optional sign followed by decimal
digits, rejecting the empty string and values outside the `int64` range. -/
def goParseInt64 (s : List Char) : Option Int :=
  match s with
  | '+' :: ds =>
    (digitsVal ds).bind (fun n => if n ≤ 2 ^ 63 - 1 then some (n : Int) else none)
  | '-' :: ds =>
    (digitsVal ds).bind (fun n => if n ≤ 2 ^ 63 then some (-(n : Int)) else none)
  | ds =>
    (digitsVal ds).bind (fun n => if n ≤ 2 ^ 63 - 1 then some (n : Int) else none)

/-- `parseInterval` from `pkg/plugin`: a decimal value followed by a unit
suffix `s`/`m`/`h`/`d`, converted to seconds; `0` for anything that does
not parse.  The multiplications wrap like Go `int64` arithmetic. -/
def parseInterval (interval : String) : Int :=
  let cs := interval.data
  if cs.length < 2 then 0
  else
    match cs.getLast?, goParseInt64 cs.dropLast with
    | some u, some value =>
      if u = 's' then value
      else if u = 'm' then i64wrap (value * 60)
      else if u = 'h' then i64wrap (value * 3600)
      else if u = 'd' then i64wrap (value * 86400)
      else 0
    | _, _ => 0

/-- `calculateStep` from `pkg/plugin`: an explicit interval that parses to a
positive number of seconds wins; otherwise the range in seconds divided by
the maximum point count (Go `int64` division truncates toward zero),
floored at 1.  `maxDataPoints` is positive in all callers (Go would panic
on a zero divisor). -/
def calculateStep (fromUnix toUnix maxDataPoints : Int) (interval : String) : Int :=
  if interval ≠ "" ∧ 0 < parseInterval interval then
    parseInterval interval
  else
    let rangeSeconds := i64wrap (toUnix - fromUnix)
    let step := Int.tdiv rangeSeconds maxDataPoints
    if step < 1 then 1 else step

theorem i64wrap_eq_of_bounds {x : Int} (h1 : -(2 ^ 63) ≤ x) (h2 : x < 2 ^ 63) :
    i64wrap x = x := by
  unfold i64wrap
  rw [Int.emod_eq_of_lt (by omega) (by omega)]
  omega

theorem max_one_tdiv_eq_max_one_ediv (r m : Int) (hm : 0 < m) :
    max 1 (Int.tdiv r m) = max 1 (r / m) := by
  rcases le_or_lt 0 r with hr | hr
  · rw [Int.tdiv_eq_ediv hr (le_of_lt hm)]
  · have ht : Int.tdiv r m ≤ 0 := by
      have h1 : Int.tdiv (-r) m = -Int.tdiv r m := Int.neg_tdiv r m
      have h2 : 0 ≤ Int.tdiv (-r) m := Int.tdiv_nonneg (by omega) (le_of_lt hm)
      omega
    have he : r / m < 0 := Int.ediv_neg' hr hm
    omega

/-- Claim C1: for every range query, the computed step equals the parsed
explicit interval when the interval string is given and parses to a
positive duration (`"5m"` yields 300 regardless of time range or
maxPoints); otherwise the step is `max 1 (floor ((to - from) / maxPoints))`,
so the step is at least 1 even when `to = from` or `maxPoints` is large. -/
theorem calculateStep_explicit_and_fallback
    (fromUnix toUnix maxDataPoints : Int) (interval : String) :
    (interval ≠ "" → 0 < parseInterval interval →
      calculateStep fromUnix toUnix maxDataPoints interval = parseInterval interval) ∧
    (calculateStep fromUnix toUnix maxDataPoints "5m" = 300) ∧
    ((interval = "" ∨ parseInterval interval ≤ 0) →
      0 < maxDataPoints →
      -(2 ^ 63) ≤ toUnix - fromUnix → toUnix - fromUnix < 2 ^ 63 →
      calculateStep fromUnix toUnix maxDataPoints interval
        = max 1 ((toUnix - fromUnix) / maxDataPoints)) ∧
    (0 < maxDataPoints → 1 ≤ calculateStep fromUnix toUnix maxDataPoints interval) := by
  refine ⟨?_, ?_, ?_, ?_⟩
  · intro hne hpos
    unfold calculateStep
    rw [if_pos ⟨hne, hpos⟩]
  · unfold calculateStep
    rw [if_pos (by constructor <;> decide)]
    decide
  · intro hfb hm hlo hhi
    unfold calculateStep
    rw [if_neg (by rintro ⟨hne, hpos⟩; rcases hfb with h | h; exacts [hne h, by omega])]
    dsimp only
    rw [i64wrap_eq_of_bounds hlo hhi,
      ← max_one_tdiv_eq_max_one_ediv (toUnix - fromUnix) maxDataPoints hm, Int.max_def]
    split <;> split <;> omega
  · intro _
    unfold calculateStep
    split
    · rename_i h
      obtain ⟨h1, h2⟩ := h
      omega
    · dsimp only
      split <;> omega

theorem calculateStep_explicit_and_fallback_witness :
    calculateStep 0 100 50 "" = max 1 ((100 - 0 : Int) / 50) ∧
    calculateStep 5 5 1000 "" = 1 ∧
    calculateStep 0 10 7 "5m" = 300 ∧
    calculateStep 0 10 7 "banana" = max 1 ((10 - 0 : Int) / 7) := by
  refine ⟨?_, ?_, ?_, ?_⟩
  · exact (calculateStep_explicit_and_fallback 0 100 50 "").2.2.1
      (Or.inl rfl) (by decide) (by decide) (by decide)
  · have h := (calculateStep_explicit_and_fallback 5 5 1000 "").2.2.1
      (Or.inl rfl) (by decide) (by decide) (by decide)
    rw [h]; decide
  · exact (calculateStep_explicit_and_fallback 0 10 7 "x").2.1
  · exact (calculateStep_explicit_and_fallback 0 10 7 "banana").2.2.1
      (Or.inr (by decide)) (by decide) (by decide) (by decide)

/-- `url.Values`: a multimap from parameter names to ordered value lists,
modelled as a function (Go map iteration order over distinct keys does not
affect the final contents). -/
def Values := String → List String

/-- The empty parameter set. -/
def Values.empty : Values := fun _ => []

/-- `url.Values.Set`: replaces all values of `key` with the single `value`. -/
def Values.set (vs : Values) (key value : String) : Values :=
  fun k => if k = key then [value] else vs k

/-- `url.Values.Add`: appends `value` to the values of `key`. -/
def Values.add (vs : Values) (key value : String) : Values :=
  fun k => if k = key then vs k ++ [value] else vs k

/-- Value of a hexadecimal digit character, `none` otherwise. -/
def hexDigitVal (c : Char) : Option Nat :=
  if '0' ≤ c ∧ c ≤ '9' then some (c.toNat - 48)
  else if 'a' ≤ c ∧ c ≤ 'f' then some (c.toNat - 87)
  else if 'A' ≤ c ∧ c ≤ 'F' then some (c.toNat - 55)
  else none

/-- `url.QueryUnescape` on a query component: `+` decodes to space, `%XX`
to the byte `XX` (ASCII range; multi-byte UTF-8 sequences are outside the
modelled domain), a malformed escape is an error. -/
def queryUnescapeL : List Char → Except String (List Char)
  | [] => .ok []
  | '%' :: a :: b :: rest =>
    match hexDigitVal a, hexDigitVal b with
    | some ha, some hb => (queryUnescapeL rest).map (fun l => Char.ofNat (16 * ha + hb) :: l)
    | _, _ => .error "invalid URL escape"
  | '%' :: _ => .error "invalid URL escape"
  | '+' :: rest => (queryUnescapeL rest).map (fun l => ' ' :: l)
  | c :: rest => (queryUnescapeL rest).map (fun l => c :: l)

/-- One `key[=value]` segment of a query string, as handled by Go's
`url.parseQuery` loop: a segment containing `;` is an error, an empty
segment is skipped, otherwise the part before the first `=` is the key and
the rest the value, both unescaped. -/
def parseSegment (seg : List Char) : Except String (Option (String × String)) :=
  if seg.contains ';' then .error "invalid semicolon separator in query"
  else if seg = [] then .ok none
  else
    let rawKey := seg.takeWhile (fun c => c ≠ '=')
    let rawValue :=
      match seg.dropWhile (fun c => c ≠ '=') with
      | _ :: rest => rest
      | [] => []
    match queryUnescapeL rawKey, queryUnescapeL rawValue with
    | .ok k, .ok v => .ok (some (⟨k⟩, ⟨v⟩))
    | .error e, _ => .error e
    | _, .error e => .error e

/-- Folds `parseSegment` over the `&`-separated segments. -/
def parseSegments : List (List Char) → Except String (List (String × String))
  | [] => .ok []
  | seg :: rest =>
    match parseSegment seg, parseSegments rest with
    | .ok none, .ok tail => .ok tail
    | .ok (some kv), .ok tail => .ok (kv :: tail)
    | .error e, _ => .error e
    | _, .error e => .error e

/-- `url.ParseQuery`: the ordered key/value pairs of a query string, or an
error if any segment is malformed (the Go caller discards all pairs
whenever the returned error is non-nil, so an error short-circuit is
observationally equivalent to Go's error-accumulating loop). -/
def parseQueryPairs (query : String) : Except String (List (String × String)) :=
  parseSegments (query.data.splitOn '&')

/-- `queryModel` from `pkg/plugin`: the fields of one parsed data query. -/
structure queryModel where
  expr : String
  legendFormat : String
  instant : Bool
  range : Bool
  interval : String

/-- Lines 399-424 of the backend `query` handler: start from the expression,
add the operator-configured custom parameters when they parse, then set the
endpoint-specific time parameters and choose the endpoint. -/
def queryBuildParams (customQueryParameters : String) (qm : queryModel)
    (fromUnix toUnix maxDataPoints : Int) : String × Values :=
  let params := Values.set Values.empty "query" qm.expr
  let params :=
    if customQueryParameters ≠ "" then
      match parseQueryPairs customQueryParameters with
      | .ok customPairs => customPairs.foldl (fun p kv => p.add kv.1 kv.2) params
      | .error _ => params
    else params
  if qm.range && !qm.instant then
    let params := params.set "start" (toString fromUnix)
    let params := params.set "end" (toString toUnix)
    let step := calculateStep fromUnix toUnix maxDataPoints qm.interval
    let params := params.set "step" (toString step)
    ("/api/v1/query_range", params)
  else
    ("/api/v1/query", params.set "time" (toString toUnix))

/-- Outcome of the front section of the backend `query` handler: a
bad-request error, a silent empty response, or an HTTP request to build. -/
inductive QueryOutcome where
  | badRequest (msg : String)
  | empty
  | request (endpoint : String) (params : Values)

/-- Lines 389-424 of the backend `query` handler: an unparseable query JSON
is a bad-request error; an empty expression returns an empty response
before any HTTP request; otherwise the endpoint and parameters are built. -/
def queryHandle (parsed : Except String queryModel) (customQueryParameters : String)
    (fromUnix toUnix maxDataPoints : Int) : QueryOutcome :=
  match parsed with
  | .error e => .badRequest ("failed to parse query: " ++ e)
  | .ok qm =>
    if qm.expr = "" then .empty
    else
      let ep := queryBuildParams customQueryParameters qm fromUnix toUnix maxDataPoints
      .request ep.1 ep.2

/-- Claim C3: the range endpoint is selected exactly when the range flag is
set and the instant flag is not; every other combination selects the
instant endpoint. -/
theorem query_endpoint_selection (customQueryParameters : String) (qm : queryModel)
    (fromUnix toUnix maxDataPoints : Int) :
    ((queryBuildParams customQueryParameters qm fromUnix toUnix maxDataPoints).1
        = "/api/v1/query_range"
      ↔ qm.range = true ∧ qm.instant = false) ∧
    ((queryBuildParams customQueryParameters qm fromUnix toUnix maxDataPoints).1
        = "/api/v1/query_range"
      ∨ (queryBuildParams customQueryParameters qm fromUnix toUnix maxDataPoints).1
        = "/api/v1/query") := by
  unfold queryBuildParams
  rcases hr : qm.range <;> rcases hi : qm.instant <;> simp

/-- Claim C10: a successfully parsed query whose expression is empty yields
the silent empty outcome (no HTTP request is issued: only the `request`
outcome carries one), while an unparseable query JSON yields a bad-request
error, which is distinct from the silent empty outcome. -/
theorem query_empty_expr_dispatch (e customQueryParameters : String) (qm : queryModel)
    (fromUnix toUnix maxDataPoints : Int) :
    (queryHandle (.error e) customQueryParameters fromUnix toUnix maxDataPoints
        = .badRequest ("failed to parse query: " ++ e)) ∧
    (queryHandle (.ok qm) customQueryParameters fromUnix toUnix maxDataPoints
        = QueryOutcome.empty
      ↔ qm.expr = "") ∧
    (∀ msg, QueryOutcome.badRequest msg ≠ QueryOutcome.empty) := by
  refine ⟨rfl, ?_, fun _ h => by cases h⟩
  unfold queryHandle
  rcases hx : decide (qm.expr = "") with _ | _
  · simp at hx
    simp [hx]
  · simp at hx
    simp [hx]

theorem foldl_add_apply (pairs : List (String × String)) (base : Values) (k : String) :
    (pairs.foldl (fun p kv => p.add kv.1 kv.2) base) k
      = base k ++ (pairs.filter (fun kv => kv.1 == k)).map Prod.snd := by
  induction pairs generalizing base with
  | nil => simp
  | cons kv rest ih =>
    simp only [List.foldl_cons, List.filter_cons]
    rw [ih]
    by_cases h : kv.1 = k
    · rw [if_pos (by simp [h])]
      simp [Values.add, h.symm]
    · rw [if_neg (by simp [h])]
      have hne : ¬ k = kv.1 := fun hk => h hk.symm
      have hb : (base.add kv.1 kv.2) k = base k := by simp [Values.add, hne]
      rw [hb]

/-- Claim C9 counterexample: with the operator-configured extra parameter
string `step=5` on a range query, the outbound `step` parameter holds only
the engine-computed value; the extra `5` is silently overridden and is not
sent, contradicting the claim that both values are always sent. -/
theorem query_params_step_override_cex :
    ((queryBuildParams "step=5" ⟨"up", "", false, true, ""⟩ 0 100 100).2 "step" = ["1"]) ∧
    "5" ∉ ((queryBuildParams "step=5" ⟨"up", "", false, true, ""⟩ 0 100 100).2 "step") := by
  constructor <;> decide

/-- Claim C9 (amended): the outbound parameter set merges the expression,
the computed time bounds, and the parsed extra parameters; duplicate keys
from the extra parameters are additive for the expression key `query` and
for every key other than the engine-set time parameters, but the
engine-set time parameters (`start`/`end`/`step` for range, `time` for
instant), written after the extras are merged, replace any same-named
extra parameter. -/
theorem query_params_merge_amended
    (expr legendFormat interval customQueryParameters : String)
    (pairs : List (String × String)) (fromUnix toUnix maxDataPoints : Int)
    (hne : customQueryParameters ≠ "")
    (hp : parseQueryPairs customQueryParameters = .ok pairs) :
    ((queryBuildParams customQueryParameters ⟨expr, legendFormat, false, true, interval⟩
        fromUnix toUnix maxDataPoints).2 "query"
      = expr :: (pairs.filter (fun kv => kv.1 == "query")).map Prod.snd) ∧
    (∀ k : String, k ≠ "query" → k ≠ "start" → k ≠ "end" → k ≠ "step" →
      (queryBuildParams customQueryParameters ⟨expr, legendFormat, false, true, interval⟩
          fromUnix toUnix maxDataPoints).2 k
        = (pairs.filter (fun kv => kv.1 == k)).map Prod.snd) ∧
    ((queryBuildParams customQueryParameters ⟨expr, legendFormat, false, true, interval⟩
        fromUnix toUnix maxDataPoints).2 "start" = [toString fromUnix]) ∧
    ((queryBuildParams customQueryParameters ⟨expr, legendFormat, false, true, interval⟩
        fromUnix toUnix maxDataPoints).2 "end" = [toString toUnix]) ∧
    ((queryBuildParams customQueryParameters ⟨expr, legendFormat, false, true, interval⟩
        fromUnix toUnix maxDataPoints).2 "step"
      = [toString (calculateStep fromUnix toUnix maxDataPoints interval)]) ∧
    ((queryBuildParams customQueryParameters ⟨expr, legendFormat, true, true, interval⟩
        fromUnix toUnix maxDataPoints).2 "time" = [toString toUnix]) ∧
    (∀ k : String, k ≠ "query" → k ≠ "time" →
      (queryBuildParams customQueryParameters ⟨expr, legendFormat, true, true, interval⟩
          fromUnix toUnix maxDataPoints).2 k
        = (pairs.filter (fun kv => kv.1 == k)).map Prod.snd) ∧
    ((queryBuildParams customQueryParameters ⟨expr, legendFormat, true, true, interval⟩
        fromUnix toUnix maxDataPoints).2 "query"
      = expr :: (pairs.filter (fun kv => kv.1 == "query")).map Prod.snd) := by
  unfold queryBuildParams
  dsimp only
  rw [if_pos hne, hp]
  refine ⟨?_, ?_, ?_, ?_, ?_, ?_, ?_, ?_⟩
  · simp [Values.set, Values.empty, foldl_add_apply]
  · intro k hq hs he hst
    simp [Values.set, Values.empty, foldl_add_apply, hq, hs, he, hst]
  · simp [Values.set]
  · simp [Values.set]
  · simp [Values.set]
  · simp [Values.set]
  · intro k hq ht
    simp [Values.set, Values.empty, foldl_add_apply, hq, ht]
  · simp [Values.set, Values.empty, foldl_add_apply]

theorem query_params_merge_amended_witness :
    ((queryBuildParams "step=5&foo=bar" ⟨"up", "", false, true, ""⟩ 0 100 100).2 "foo"
      = ["bar"]) ∧
    ((queryBuildParams "step=5&foo=bar" ⟨"up", "", false, true, ""⟩ 0 100 100).2 "query"
      = ["up"]) ∧
    ((queryBuildParams "step=5&foo=bar" ⟨"up", "", false, true, ""⟩ 0 100 100).2 "start"
      = ["0"]) := by
  have h := query_params_merge_amended "up" "" "" "step=5&foo=bar"
    [("step", "5"), ("foo", "bar")] 0 100 100 (by decide) rfl
  refine ⟨?_, ?_, ?_⟩
  · rw [h.2.1 "foo" (by decide) (by decide) (by decide) (by decide)]
    decide
  · rw [h.1]
    decide
  · rw [h.2.2.1]
    decide

/-- One character of Go `%q` rendering: the double-quote, backslash and
common control characters are backslash-escaped, every other printable
character stands for itself (non-printable characters, which `%q` hex
escapes, do not occur in Prometheus label values and are outside the
modelled domain). -/
def goQuoteChar (c : Char) : List Char :=
  if c = '"' then ['\\', '"']
  else if c = '\\' then ['\\', '\\']
  else if c = '\n' then ['\\', 'n']
  else if c = '\t' then ['\\', 't']
  else if c = '\r' then ['\\', 'r']
  else [c]

/-- `fmt.Sprintf("%q", s)`: the string in double quotes with escapes. -/
def goQuote (s : String) : String :=
  ⟨'"' :: (s.data.map goQuoteChar).flatten ++ ['"']⟩

/-- `strings.ReplaceAll` on character lists, scanning left to right and
replacing each non-overlapping occurrence of `pat` by `rep`.  The pattern
is assumed non-empty (the patterns `formatLegend` uses always are; Go's
behaviour for an empty pattern is different and unused here). -/
def replaceAllL (pat rep : List Char) (s : List Char) : List Char :=
  match s with
  | [] => []
  | c :: rest =>
    if _h : pat ≠ [] ∧ pat.isPrefixOf (c :: rest) = true then
      rep ++ replaceAllL pat rep (rest.drop (pat.length - 1))
    else
      c :: replaceAllL pat rep rest
termination_by s.length
decreasing_by
  · simp only [List.length_cons]
    have := List.length_drop (pat.length - 1) rest
    omega
  · simp only [List.length_cons]
    omega

/-- `strings.ReplaceAll(s, old, new)` lifted to `String`. -/
def stringsReplaceAll (s old new : String) : String :=
  ⟨replaceAllL old.data new.data s.data⟩

/-- Whether `pat` occurs as a contiguous sublist of `s` (for non-empty
`pat`). -/
def occursL (pat : List Char) : List Char → Bool
  | [] => false
  | c :: rest => pat.isPrefixOf (c :: rest) || occursL pat rest

/-- Whether no occurrence of `pat` starts at a position inside `a` when
scanning `a ++ rest`. -/
def noStartIn (pat : List Char) : List Char → List Char → Bool
  | [], _ => true
  | c :: a, rest => !(pat.isPrefixOf (c :: (a ++ rest))) && noStartIn pat a rest

/-- The `\x7b\x7blabel\x7d\x7d` placeholder (written here as a character
list because the braces are significant), i.e. Go's `"{{" + k + "}}"`. -/
def phPlain (k : String) : List Char :=
  '{' :: '{' :: k.data ++ ['}', '}']

/-- The spaced placeholder, Go's `"{{ " + k + " }}"`. -/
def phSpaced (k : String) : List Char :=
  '{' :: '{' :: ' ' :: k.data ++ [' ', '}', '}']

/-- `formatLegend` from `pkg/plugin`: with no template, the labels render
as comma-joined `key=%q` pairs (or the literal `value` when there are
none); with a template, both placeholder forms of every label key are
replaced by the label's value, label by label. -/
def formatLegend (labels : List (String × String)) (format : String) : String :=
  if format = "" then
    let parts := labels.map (fun kv => kv.1 ++ "=" ++ goQuote kv.2)
    if parts = [] then "value" else String.intercalate ", " parts
  else
    labels.foldl
      (fun result kv =>
        stringsReplaceAll (stringsReplaceAll result ⟨phPlain kv.1⟩ kv.2) ⟨phSpaced kv.1⟩ kv.2)
      format

theorem replaceAllL_nil (pat rep : List Char) : replaceAllL pat rep [] = [] := by
  rw [replaceAllL]

theorem replaceAllL_cons_pos (pat rep : List Char) (c : Char) (rest : List Char)
    (h1 : pat ≠ []) (h2 : pat.isPrefixOf (c :: rest) = true) :
    replaceAllL pat rep (c :: rest)
      = rep ++ replaceAllL pat rep (rest.drop (pat.length - 1)) := by
  rw [replaceAllL, dif_pos ⟨h1, h2⟩]

theorem replaceAllL_cons_neg (pat rep : List Char) (c : Char) (rest : List Char)
    (h : pat.isPrefixOf (c :: rest) = false) :
    replaceAllL pat rep (c :: rest) = c :: replaceAllL pat rep rest := by
  rw [replaceAllL, dif_neg (by simp [h])]

theorem replaceAllL_of_not_occurs (pat rep : List Char) (s : List Char)
    (h : occursL pat s = false) : replaceAllL pat rep s = s := by
  induction s with
  | nil => exact replaceAllL_nil pat rep
  | cons c rest ih =>
    rw [occursL] at h
    cases hx : pat.isPrefixOf (c :: rest) with
    | true => rw [hx] at h; simp at h
    | false =>
      rw [hx] at h
      simp only [Bool.false_or] at h
      rw [replaceAllL_cons_neg pat rep c rest hx, ih h]

theorem replaceAllL_boundary (pat rep : List Char) (hp : pat ≠ []) :
    ∀ (a b : List Char), noStartIn pat a (pat ++ b) = true →
      replaceAllL pat rep (a ++ (pat ++ b)) = a ++ (rep ++ replaceAllL pat rep b) := by
  intro a
  induction a with
  | nil =>
    intro b _
    obtain ⟨p, pt, hpat⟩ := List.exists_cons_of_ne_nil hp
    subst hpat
    simp only [List.nil_append, List.cons_append]
    rw [replaceAllL_cons_pos _ _ _ _ hp
      (by rw [List.isPrefixOf_iff_prefix, ← List.cons_append]; exact List.prefix_append _ _)]
    simp only [List.length_cons, Nat.add_sub_cancel]
    rw [List.drop_left]
  | cons c a ih =>
    intro b hns
    rw [noStartIn] at hns
    cases hx : pat.isPrefixOf (c :: (a ++ (pat ++ b))) with
    | true => rw [hx] at hns; simp at hns
    | false =>
      rw [hx] at hns
      simp only [Bool.not_false, Bool.true_and] at hns
      rw [List.cons_append, replaceAllL_cons_neg _ _ _ _ hx, ih b hns, List.cons_append]

theorem foldl_replace_unchanged (format : String) (labels : List (String × String))
    (h : ∀ kv ∈ labels, occursL (phPlain kv.1) format.data = false ∧
      occursL (phSpaced kv.1) format.data = false) :
    labels.foldl
      (fun result kv =>
        stringsReplaceAll (stringsReplaceAll result ⟨phPlain kv.1⟩ kv.2) ⟨phSpaced kv.1⟩ kv.2)
      format = format := by
  induction labels with
  | nil => rfl
  | cons kv rest ih =>
    have hkv := h kv (by simp)
    have hrest : ∀ kv' ∈ rest, occursL (phPlain kv'.1) format.data = false ∧
        occursL (phSpaced kv'.1) format.data = false :=
      fun kv' hm => h kv' (by simp [hm])
    rw [List.foldl_cons]
    have hstep : stringsReplaceAll (stringsReplaceAll format ⟨phPlain kv.1⟩ kv.2)
        ⟨phSpaced kv.1⟩ kv.2 = format := by
      unfold stringsReplaceAll
      try dsimp only
      rw [replaceAllL_of_not_occurs _ _ _ hkv.1]
      try dsimp only
      rw [replaceAllL_of_not_occurs _ _ _ hkv.2]
    rw [hstep, ih hrest]

/-- Claim C5: legend formatting substitutes an occurrence of the plain
placeholder, an occurrence of the spaced placeholder, and returns the
template completely unchanged when no label's placeholder occurs in it
(in particular when the template has no placeholders at all).  The
occurrence hypotheses rule out overlapping matches, which is the regime
the claim describes. -/
theorem formatLegend_template_substitution :
    (∀ (k v : String) (a b : List Char),
      noStartIn (phPlain k) a (phPlain k ++ b) = true →
      occursL (phPlain k) b = false →
      occursL (phSpaced k) (a ++ (v.data ++ b)) = false →
      formatLegend [(k, v)] ⟨a ++ (phPlain k ++ b)⟩ = ⟨a ++ (v.data ++ b)⟩) ∧
    (∀ (k v : String) (a b : List Char),
      occursL (phPlain k) (a ++ (phSpaced k ++ b)) = false →
      noStartIn (phSpaced k) a (phSpaced k ++ b) = true →
      occursL (phSpaced k) b = false →
      formatLegend [(k, v)] ⟨a ++ (phSpaced k ++ b)⟩ = ⟨a ++ (v.data ++ b)⟩) ∧
    (∀ (labels : List (String × String)) (format : String),
      format ≠ "" →
      (∀ kv ∈ labels, occursL (phPlain kv.1) format.data = false ∧
        occursL (phSpaced kv.1) format.data = false) →
      formatLegend labels format = format) := by
  refine ⟨?_, ?_, ?_⟩
  · intro k v a b hns hb hsp
    have hpne : phPlain k ≠ [] := by simp [phPlain]
    have hfne : (⟨a ++ (phPlain k ++ b)⟩ : String) ≠ "" := by
      intro h
      have hd := congrArg String.data h
      simp [phPlain] at hd
    unfold formatLegend
    rw [if_neg hfne]
    simp only [List.foldl_cons, List.foldl_nil]
    unfold stringsReplaceAll
    try dsimp only
    rw [replaceAllL_boundary _ _ hpne a b hns, replaceAllL_of_not_occurs _ _ _ hb]
    try dsimp only
    rw [replaceAllL_of_not_occurs _ _ _ hsp]
  · intro k v a b hpl hns hb
    have hpne : phSpaced k ≠ [] := by simp [phSpaced]
    have hfne : (⟨a ++ (phSpaced k ++ b)⟩ : String) ≠ "" := by
      intro h
      have hd := congrArg String.data h
      simp [phSpaced] at hd
    unfold formatLegend
    rw [if_neg hfne]
    simp only [List.foldl_cons, List.foldl_nil]
    unfold stringsReplaceAll
    try dsimp only
    rw [replaceAllL_of_not_occurs _ _ _ hpl]
    try dsimp only
    rw [replaceAllL_boundary _ _ hpne a b hns, replaceAllL_of_not_occurs _ _ _ hb]
  · intro labels format hne h
    unfold formatLegend
    rw [if_neg hne]
    exact foldl_replace_unchanged format labels h

theorem formatLegend_template_substitution_witness :
    formatLegend [("pod", "x")] ⟨['a'] ++ (phPlain "pod" ++ ['c'])⟩
      = ⟨['a'] ++ ("x".data ++ ['c'])⟩ ∧
    formatLegend [("pod", "x")] ⟨['a'] ++ (phSpaced "pod" ++ ['c'])⟩
      = ⟨['a'] ++ ("x".data ++ ['c'])⟩ ∧
    formatLegend [("pod", "x")] "no placeholder" = "no placeholder" := by
  refine ⟨?_, ?_, ?_⟩
  · exact formatLegend_template_substitution.1 "pod" "x" ['a'] ['c']
      (by decide) (by decide) (by decide)
  · exact formatLegend_template_substitution.2.1 "pod" "x" ['a'] ['c']
      (by decide) (by decide) (by decide)
  · exact formatLegend_template_substitution.2.2 [("pod", "x")] "no placeholder"
      (by decide) (by decide)

/-- Characters that `%q` renders as themselves. -/
def goPlainChar (c : Char) : Bool :=
  !(c = '"' || c = '\\' || c = '\n' || c = '\t' || c = '\r')

theorem flatten_map_goQuoteChar (l : List Char) (h : l.all goPlainChar = true) :
    (l.map goQuoteChar).flatten = l := by
  induction l with
  | nil => rfl
  | cons c rest ih =>
    rw [List.all_cons, Bool.and_eq_true] at h
    obtain ⟨hc, hrest⟩ := h
    rw [List.map_cons, List.flatten_cons, ih hrest]
    have hq : goQuoteChar c = [c] := by
      simp only [goPlainChar, Bool.not_eq_eq_eq_not, Bool.not_true, Bool.or_eq_false_iff,
        decide_eq_false_iff_not] at hc
      simp [goQuoteChar, hc.1.1.1, hc.1.1.2, hc.1.2, hc.2]
    rw [hq, List.singleton_append]

theorem goQuote_plain (v : String) (h : v.data.all goPlainChar = true) :
    goQuote v = "\"" ++ v ++ "\"" := by
  apply String.ext
  rw [String.data_append, String.data_append]
  show '"' :: (v.data.map goQuoteChar).flatten ++ ['"'] = ['"'] ++ v.data ++ ['"']
  rw [flatten_map_goQuoteChar v.data h]
  rfl

/-- Claim C4: with no legend template, the frame name is the label set
rendered as `key=%q`-quoted pairs joined by a comma and space in the
label list's iteration order (for escape-free values this is exactly
`key="value"`), and the literal `value` when the label set is empty. -/
theorem formatLegend_default_rendering (labels : List (String × String)) :
    (labels = [] → formatLegend labels "" = "value") ∧
    (formatLegend labels "" = if labels = [] then "value"
      else String.intercalate ", "
        (labels.map (fun kv => kv.1 ++ "=" ++ goQuote kv.2))) ∧
    ((∀ kv ∈ labels, kv.2.data.all goPlainChar = true) → labels ≠ [] →
      formatLegend labels "" = String.intercalate ", "
        (labels.map (fun kv => kv.1 ++ "=\"" ++ kv.2 ++ "\""))) := by
  have hmain : formatLegend labels "" = if labels = [] then "value"
      else String.intercalate ", " (labels.map (fun kv => kv.1 ++ "=" ++ goQuote kv.2)) := by
    unfold formatLegend
    rw [if_pos rfl]
    by_cases hl : labels = []
    · subst hl
      rfl
    · rw [if_neg hl, if_neg (by simpa using hl)]
  refine ⟨fun hl => by rw [hmain, if_pos hl], hmain, ?_⟩
  intro hplain hl
  rw [hmain, if_neg hl]
  congr 1
  apply List.map_congr_left
  intro kv hm
  rw [goQuote_plain kv.2 (hplain kv hm)]
  apply String.ext
  simp [String.data_append]

theorem formatLegend_default_rendering_witness :
    formatLegend [] "" = "value" ∧
    formatLegend [("job", "api")] "" = "job=\"api\"" := by
  constructor
  · exact (formatLegend_default_rendering []).1 rfl
  · have h := (formatLegend_default_rendering [("job", "api")]).2.2 (by decide) (by decide)
    rw [h]
    decide

/-- Characters matched by the regex class `\s` (ASCII range). -/
def jsWhitespaceChar (c : Char) : Bool :=
  c = ' ' || c = '\t' || c = '\n' || c = '\r' || c = '\x0b' || c = '\x0c'

/-- One match of the frontend legend regex `\x7b\x7b\s*key\s*\x7d\x7d` at
the head of `s`, returning the remainder after the match.  Keys are label
names (no leading or trailing whitespace and no regex metacharacters, the
domain the frontend uses). -/
def matchPlaceholder (key : List Char) (s : List Char) : Option (List Char) :=
  match s with
  | c1 :: c2 :: r0 =>
    if c1 = '{' ∧ c2 = '{' then
      let r1 := r0.dropWhile jsWhitespaceChar
      if key.isPrefixOf r1 then
        match (r1.drop key.length).dropWhile jsWhitespaceChar with
        | d1 :: d2 :: r3 => if d1 = '}' ∧ d2 = '}' then some r3 else none
        | _ => none
      else none
    else none
  | _ => none

theorem length_dropWhile_le (p : Char → Bool) (l : List Char) :
    (l.dropWhile p).length ≤ l.length := by
  induction l with
  | nil => simp [List.dropWhile]
  | cons c rest ih =>
    simp only [List.dropWhile]
    split
    · exact ih.trans (by simp)
    · simp

theorem matchPlaceholder_some_length (key s r : List Char)
    (h : matchPlaceholder key s = some r) : r.length < s.length := by
  unfold matchPlaceholder at h
  match s with
  | [] => simp at h
  | [c1] => simp at h
  | c1 :: c2 :: r0 =>
    simp only at h
    split at h
    · split at h
      · rename_i hdw
        split at h
        · rename_i d1 d2 r3 hds
          split at h
          · have h1 : (r0.dropWhile jsWhitespaceChar).length ≤ r0.length :=
              length_dropWhile_le _ _
            have h2 : (((r0.dropWhile jsWhitespaceChar).drop key.length).dropWhile
                jsWhitespaceChar).length ≤ ((r0.dropWhile jsWhitespaceChar).drop
                key.length).length := length_dropWhile_le _ _
            have h3 := List.length_drop key.length (r0.dropWhile jsWhitespaceChar)
            have h4 := congrArg List.length hds
            simp only [List.length_cons] at h4
            have hr : r = r3 := by
              cases h
              rfl
            subst hr
            simp only [List.length_cons]
            omega
          · simp at h
        · simp at h
      · simp at h
    · simp at h

/-- The frontend's `result.replace(regex, value)` for one key: scan left to
right, replacing each placeholder match and continuing after the inserted
replacement. -/
def replaceKeyL (key rep : List Char) (s : List Char) : List Char :=
  match hm : matchPlaceholder key s with
  | some r3 => rep ++ replaceKeyL key rep r3
  | none =>
    match s with
    | [] => []
    | c :: rest => c :: replaceKeyL key rep rest
termination_by s.length
decreasing_by
  · exact matchPlaceholder_some_length key s r3 hm
  · simp

/-- The frontend `formatLegend`: with no template, labels render as
`key="value"` pairs comma-joined (the literal `value` when empty, the JS
`|| 'value'` fallback); with a template, each key's placeholder regex is
replaced by the label's value, label by label. -/
def tsFormatLegend (labels : List (String × String)) (format : String) : String :=
  if format = "" then
    let rendered := String.intercalate ", "
      (labels.map (fun kv => kv.1 ++ "=\"" ++ kv.2 ++ "\""))
    if rendered = "" then "value" else rendered
  else
    labels.foldl (fun res kv => ⟨replaceKeyL kv.1.data kv.2.data res.data⟩) format

/-- Digits of a decimal exponent after `e`/`E` with optional sign, as the
frontend regex engine reads them (no digits means exponent 0, matching JS
`parseFloat` which then ignores the `e`). -/
def jsExpVal (cs : List Char) : Int :=
  match cs with
  | '-' :: ds =>
    -(((ds.takeWhile (fun c => c.isDigit)).foldl (fun n c => 10 * n + (c.toNat - 48)) 0 : Nat) : Int)
  | '+' :: ds =>
    (((ds.takeWhile (fun c => c.isDigit)).foldl (fun n c => 10 * n + (c.toNat - 48)) 0 : Nat) : Int)
  | ds =>
    (((ds.takeWhile (fun c => c.isDigit)).foldl (fun n c => 10 * n + (c.toNat - 48)) 0 : Nat) : Int)

/-- Sign prefix of a JS number literal. -/
def jsSignSplit (cs : List Char) : ℚ × List Char :=
  match cs with
  | '-' :: r => (-1, r)
  | '+' :: r => (1, r)
  | _ => (1, cs)

/-- Fractional part after the integer digits. -/
def jsFracSplit (r1 : List Char) : List Char × List Char :=
  match r1 with
  | '.' :: rest => (rest.takeWhile (fun c => c.isDigit), rest.dropWhile (fun c => c.isDigit))
  | _ => ([], r1)

/-- JS `parseFloat` with exact rational semantics: leading whitespace and
trailing garbage are ignored, `none` models `NaN` (no digits at all).
The IEEE-754 rounding of an exactly-parsed decimal, and the `Infinity`
literal, are outside the modelled domain. -/
def jsParseFloat (s : String) : Option ℚ :=
  let cs := s.data.dropWhile jsWhitespaceChar
  let sc := jsSignSplit cs
  let ip := sc.2.takeWhile (fun c => c.isDigit)
  let r1 := sc.2.dropWhile (fun c => c.isDigit)
  let fr := jsFracSplit r1
  if ip = [] ∧ fr.1 = [] then none
  else
    let ipv : ℕ := ip.foldl (fun n c => 10 * n + (c.toNat - 48)) 0
    let fpv : ℕ := fr.1.foldl (fun n c => 10 * n + (c.toNat - 48)) 0
    let mant : ℚ := (ipv : ℚ) + (fpv : ℚ) / ((10 : ℚ) ^ fr.1.length)
    let exp : Int :=
      match fr.2 with
      | 'e' :: rest => jsExpVal rest
      | 'E' :: rest => jsExpVal rest
      | _ => 0
    let q := sc.1 * mant
    some (if 0 ≤ exp then q * (10 : ℚ) ^ exp.toNat else q / (10 : ℚ) ^ (-exp).toNat)

/-- One entry of the remote API's `data.result` array: its label object and
(depending on the result type) its `values` list or single `value`. -/
structure PromResult where
  metric : List (String × String)
  values : List (ℚ × String)
  value : Option (ℚ × String)

/-- The `data` member of the reply envelope. -/
structure PromResponseData where
  resultType : String
  result : List PromResult

/-- The reply envelope as the frontend transform sees it (`none` models a
missing or null `data.result`). -/
structure PromResponse where
  data : Option PromResponseData

/-- One named, labeled time series with ordered (millisecond timestamp,
value) samples; a `none` value models JS `NaN`. -/
structure SeriesFrame where
  refId : String
  name : String
  samples : List (ℚ × Option ℚ)

/-- `transformResponse` from the frontend datasource: each result entry
becomes one frame; for `matrix` every `[timestamp, value]` pair appends a
`(timestamp * 1000, parseFloat value)` row in received order, for `vector`
the single value appends one row, any other result type yields no rows. -/
def transformResponse (response : PromResponse) (legendFormat refId : String) :
    List SeriesFrame :=
  match response.data with
  | none => []
  | some d =>
    d.result.map (fun result =>
      let labels := result.metric
      let name := tsFormatLegend labels legendFormat
      let samples :=
        if d.resultType = "matrix" then
          result.values.map (fun p => (p.1 * 1000, jsParseFloat p.2))
        else if d.resultType = "vector" then
          match result.value with
          | some tv => [(tv.1 * 1000, jsParseFloat tv.2)]
          | none => []
        else []
      { refId := refId, name := name, samples := samples })

/-- Claim C2: a `matrix` response maps each result entry to one frame whose
samples are the `(timestamp * 1000, parseFloat value)` pairs in exactly
the order received (no re-sorting); the concrete input
`[[1000, "1"], [1010, "2"]]` yields timestamps 1000000 and 1010000 with
values 1 and 2 in that order, and a `vector` entry yields a frame with a
single sample. -/
theorem transformResponse_matrix_order (rs : List PromResult) (legendFormat refId : String) :
    ((transformResponse ⟨some ⟨"matrix", rs⟩⟩ legendFormat refId).map SeriesFrame.samples
      = rs.map (fun r => r.values.map (fun p => (p.1 * 1000, jsParseFloat p.2)))) ∧
    ((transformResponse ⟨some ⟨"vector", rs⟩⟩ legendFormat refId).map SeriesFrame.samples
      = rs.map (fun r =>
          match r.value with
          | some tv => [(tv.1 * 1000, jsParseFloat tv.2)]
          | none => [])) ∧
    ((transformResponse ⟨some ⟨"matrix", [⟨[], [((1000 : ℚ), "1"), (1010, "2")], none⟩]⟩⟩
        "" "A").map SeriesFrame.samples
      = [[((1000000 : ℚ), some (1 : ℚ)), (1010000, some 2)]]) := by
  refine ⟨?_, ?_, ?_⟩
  · unfold transformResponse
    rw [List.map_map]
    rfl
  · unfold transformResponse
    rw [List.map_map]
    rfl
  · unfold transformResponse
    rw [List.map_map]
    simp [jsParseFloat, jsSignSplit, jsFracSplit, jsWhitespaceChar, jsExpVal]
    norm_num

/-- Health-check outcome status. -/
inductive HealthStatus where
  | ok
  | error
deriving DecidableEq

/-- `backend.CheckHealthResult`: a status and a user-visible message. -/
structure CheckHealthResult where
  status : HealthStatus
  message : String
deriving DecidableEq

/-- The HTTP status classification at the end of `CheckHealth` in
`pkg/plugin` once the round trip to the remote server has completed:
401 and 403 get authentication- and authorization-specific messages, any
other non-200 a generic remote-status message, and 200 is healthy. -/
def checkHealthStatusResult (statusCode : Nat) : CheckHealthResult :=
  if statusCode = 401 then
    ⟨.error, "Prometheus authentication failed (401 Unauthorized)"⟩
  else if statusCode = 403 then
    ⟨.error, "Prometheus access forbidden (403 Forbidden)"⟩
  else if statusCode ≠ 200 then
    ⟨.error, "Prometheus returned status " ++ toString statusCode⟩
  else
    ⟨.ok, "SSH connection and Prometheus are working"⟩

/-- The generic gateway/connection failure message `CheckHealth` produces
when the HTTP round trip itself fails (`httpClient.Do` error). -/
def connectFailureMessage (err : String) : String :=
  "Failed to connect to Prometheus: " ++ err

theorem connectFailureMessage_head (err : String) :
    (connectFailureMessage err).data.head? = some 'F' := by
  unfold connectFailureMessage
  rw [String.ext_iff.mp rfl, String.data_append]
  rfl

/-- Claim C6: a completed health-check round trip classifies 401 as an
authentication-specific error and 403 as an authorization-specific one,
both distinct from the generic connection-failure message; any other
non-200 status is a generic remote error; and only status 200 is
healthy. -/
theorem checkHealth_status_classification (statusCode : Nat) :
    (checkHealthStatusResult 401
      = ⟨.error, "Prometheus authentication failed (401 Unauthorized)"⟩) ∧
    (checkHealthStatusResult 403
      = ⟨.error, "Prometheus access forbidden (403 Forbidden)"⟩) ∧
    (statusCode ≠ 200 → statusCode ≠ 401 → statusCode ≠ 403 →
      checkHealthStatusResult statusCode
        = ⟨.error, "Prometheus returned status " ++ toString statusCode⟩) ∧
    ((checkHealthStatusResult statusCode).status = .ok ↔ statusCode = 200) ∧
    (∀ err, (checkHealthStatusResult 401).message ≠ connectFailureMessage err ∧
      (checkHealthStatusResult 403).message ≠ connectFailureMessage err) := by
  refine ⟨by decide, by decide, ?_, ?_, ?_⟩
  · intro h200 h401 h403
    unfold checkHealthStatusResult
    rw [if_neg h401, if_neg h403, if_pos h200]
  · constructor
    · intro h
      unfold checkHealthStatusResult at h
      split at h
      · simp at h
      · split at h
        · simp at h
        · split at h
          · simp at h
          · rename_i h1 h2 h3
            omega
    · intro h
      subst h
      decide
  · intro err
    constructor
    · intro h
      have hh : (checkHealthStatusResult 401).message.data.head?
          = (connectFailureMessage err).data.head? := by rw [h]
      rw [connectFailureMessage_head] at hh
      have hp : (checkHealthStatusResult 401).message.data.head? = some 'P' := by decide
      rw [hp] at hh
      cases hh
    · intro h
      have hh : (checkHealthStatusResult 403).message.data.head?
          = (connectFailureMessage err).data.head? := by rw [h]
      rw [connectFailureMessage_head] at hh
      have hp : (checkHealthStatusResult 403).message.data.head? = some 'P' := by decide
      rw [hp] at hh
      cases hh

theorem checkHealth_status_classification_witness :
    checkHealthStatusResult 500
      = ⟨.error, "Prometheus returned status " ++ toString (500 : Nat)⟩ ∧
    ((checkHealthStatusResult 200).status = .ok) ∧
    (checkHealthStatusResult 401).message ≠ connectFailureMessage "connection refused" := by
  refine ⟨?_, ?_, ?_⟩
  · exact (checkHealth_status_classification 500).2.2.1 (by decide) (by decide) (by decide)
  · exact ((checkHealth_status_classification 200).2.2.2.1).mpr rfl
  · exact ((checkHealth_status_classification 0).2.2.2.2 "connection refused").1

/-- The mutable state of a `Tunnel` from `pkg/ssh/tunnel.go`: the alive
flag, whether the `done` channel has been closed (the accept-loop stop
signal), and how many times each underlying resource's `Close` has been
invoked (counting double-closes). -/
structure TunnelState where
  alive : Bool
  doneClosed : Bool
  listenerCloses : Nat
  clientCloses : Nat
deriving DecidableEq

/-- The state of a freshly constructed tunnel (`NewTunnel` success path). -/
def tunnelInit : TunnelState :=
  { alive := true, doneClosed := false, listenerCloses := 0, clientCloses := 0 }

/-- `Tunnel.Close` under the mutex: a closed tunnel returns immediately
with no error; an alive one flips the flag, closes `done`, and closes the
listener and the client, returning the first underlying close error
(`listenerErr`/`clientErr` are the outcomes of those external calls). -/
def tunnelClose (t : TunnelState) (listenerErr clientErr : Option String) :
    TunnelState × Option String :=
  if !t.alive then (t, none)
  else
    ({ alive := false, doneClosed := true,
       listenerCloses := t.listenerCloses + 1, clientCloses := t.clientCloses + 1 },
     match listenerErr with
     | some e => some e
     | none => clientErr)

/-- `Tunnel.IsAlive`: false immediately when closed; otherwise the result
of a keepalive round trip (`keepaliveOk` is the outcome of that external
call).  The second component records whether the round trip was performed
at all. -/
def tunnelIsAlive (t : TunnelState) (keepaliveOk : Bool) : Bool × Bool :=
  if !t.alive then (false, false)
  else (keepaliveOk, true)

/-- Claim C7: the first `Close` of an alive tunnel flips the alive flag,
signals the accept loop, and closes the listener and the client exactly
once; any `Close` after a `Close` returns no error and closes nothing
again; and after any `Close`, `IsAlive` reports false without performing
a keepalive round trip. -/
theorem tunnelClose_idempotent_isAlive (t : TunnelState)
    (e1 e2 e3 e4 : Option String) (keepaliveOk : Bool) :
    (t.alive = true →
      (tunnelClose t e1 e2).1.alive = false ∧
      (tunnelClose t e1 e2).1.doneClosed = true ∧
      (tunnelClose t e1 e2).1.listenerCloses = t.listenerCloses + 1 ∧
      (tunnelClose t e1 e2).1.clientCloses = t.clientCloses + 1) ∧
    (tunnelClose (tunnelClose t e1 e2).1 e3 e4 = ((tunnelClose t e1 e2).1, none)) ∧
    (tunnelIsAlive (tunnelClose t e1 e2).1 keepaliveOk = (false, false)) := by
  refine ⟨?_, ?_, ?_⟩
  · intro ha
    unfold tunnelClose
    rw [ha]
    simp
  · cases ha : t.alive
    · unfold tunnelClose
      rw [ha]
      simp [ha]
    · unfold tunnelClose
      rw [ha]
      simp
  · cases ha : t.alive
    · unfold tunnelClose tunnelIsAlive
      rw [ha]
      simp [ha]
    · unfold tunnelClose tunnelIsAlive
      rw [ha]
      simp

theorem tunnelClose_idempotent_isAlive_witness :
    (tunnelClose tunnelInit none none).1.alive = false ∧
    (tunnelClose tunnelInit none none).1.listenerCloses = 1 ∧
    tunnelClose (tunnelClose tunnelInit none none).1 none none
      = ((tunnelClose tunnelInit none none).1, none) ∧
    tunnelIsAlive (tunnelClose tunnelInit none none).1 true = (false, false) := by
  have h := tunnelClose_idempotent_isAlive tunnelInit none none none none true
  exact ⟨(h.1 rfl).1, (h.1 rfl).2.2.1, h.2.1, h.2.2⟩

/-- A configured SSH credential, as built by `buildAuthMethods`. -/
inductive AuthMethodCred where
  | password (secret : String)
  | publicKeys (signer : String)
deriving DecidableEq

/-- `TunnelConfig` from `pkg/ssh/tunnel.go`. -/
structure TunnelConfig where
  sshHost : String
  sshPort : Int
  sshUsername : String
  authMethod : String
  sshPassword : String
  sshPrivateKey : String
  sshKeyPassphrase : String
  remoteHost : String
  remotePort : Int

/-- `buildAuthMethods`: password mode appends a password credential only
when the password is non-empty; any other mode appends a public-key
credential only when the key material is non-empty and parses (the
external `parsePrivateKey` outcome is the `parseKey` parameter, a signer
or a parse error); an empty credential list is an error. -/
def buildAuthMethods (parseKey : String → String → Except String String)
    (config : TunnelConfig) : Except String (List AuthMethodCred) :=
  let step : Except String (List AuthMethodCred) :=
    if config.authMethod = "password" then
      if config.sshPassword ≠ "" then .ok [.password config.sshPassword]
      else .ok []
    else
      if config.sshPrivateKey ≠ "" then
        match parseKey config.sshPrivateKey config.sshKeyPassphrase with
        | .error e => .error ("failed to parse private key: " ++ e)
        | .ok signer => .ok [.publicKeys signer]
      else .ok []
  match step with
  | .error e => .error e
  | .ok methods =>
    if methods = [] then .error "no authentication method configured"
    else .ok methods

/-- `NewTunnel`: build the credentials (an error aborts construction),
dial the SSH server (`dialErr` is the external dial outcome), bind the
local listener (`listenErr`; a failure closes the client and aborts), and
otherwise return a live tunnel. -/
def NewTunnelM (parseKey : String → String → Except String String)
    (dialErr listenErr : Option String) (config : TunnelConfig) :
    Except String TunnelState :=
  match buildAuthMethods parseKey config with
  | .error e => .error ("failed to build auth methods: " ++ e)
  | .ok _ =>
    match dialErr with
    | some e => .error ("failed to connect to SSH server: " ++ e)
    | none =>
      match listenErr with
      | some e => .error ("failed to create local listener: " ++ e)
      | none => .ok tunnelInit

/-- Claim C8: when the selected authentication variant resolves to no
usable credential (password mode with an empty password, key mode with
empty key material, or key material that fails to parse), construction
fails with an authentication error and returns no tunnel, whatever the
dial and listen outcomes; construction proceeds past the credential stage
only when at least one usable credential was produced. -/
theorem newTunnel_auth_failure (parseKey : String → String → Except String String)
    (dialErr listenErr : Option String) (config : TunnelConfig) :
    (config.authMethod = "password" → config.sshPassword = "" →
      NewTunnelM parseKey dialErr listenErr config
        = .error "failed to build auth methods: no authentication method configured") ∧
    (config.authMethod ≠ "password" → config.sshPrivateKey = "" →
      NewTunnelM parseKey dialErr listenErr config
        = .error "failed to build auth methods: no authentication method configured") ∧
    (∀ e, config.authMethod ≠ "password" → config.sshPrivateKey ≠ "" →
      parseKey config.sshPrivateKey config.sshKeyPassphrase = .error e →
      NewTunnelM parseKey dialErr listenErr config
        = .error ("failed to build auth methods: failed to parse private key: " ++ e)) ∧
    (∀ t, NewTunnelM parseKey dialErr listenErr config = .ok t →
      ∃ methods, buildAuthMethods parseKey config = .ok methods ∧ methods ≠ []) := by
  refine ⟨?_, ?_, ?_, ?_⟩
  · intro hm hp
    unfold NewTunnelM buildAuthMethods
    rw [if_pos hm, if_neg (by simp [hp])]
    rfl
  · intro hm hk
    unfold NewTunnelM buildAuthMethods
    rw [if_neg hm, if_neg (by simp [hk])]
    rfl
  · intro e hm hk hparse
    unfold NewTunnelM buildAuthMethods
    rw [if_neg hm, if_pos hk, hparse]
    rfl
  · intro t hok
    rcases hb : buildAuthMethods parseKey config with e | methods
    · unfold NewTunnelM at hok
      rw [hb] at hok
      cases hok
    · refine ⟨methods, rfl, ?_⟩
      intro hnil
      subst hnil
      unfold buildAuthMethods at hb
      dsimp only at hb
      rcases hstep : (if config.authMethod = "password" then
          if config.sshPassword ≠ "" then Except.ok [AuthMethodCred.password config.sshPassword]
          else Except.ok []
        else
          if config.sshPrivateKey ≠ "" then
            match parseKey config.sshPrivateKey config.sshKeyPassphrase with
            | .error e => Except.error ("failed to parse private key: " ++ e)
            | .ok signer => Except.ok [AuthMethodCred.publicKeys signer]
          else Except.ok []) with he | hms
      · rw [hstep] at hb
        cases hb
      · rw [hstep] at hb
        dsimp only at hb
        split at hb
        · cases hb
        · rename_i hne2
          injection hb with hinj
          exact hne2 hinj

theorem newTunnel_auth_failure_witness :
    NewTunnelM (fun _ _ => .error "ssh: no key found") none none
      { sshHost := "h", sshPort := 22, sshUsername := "u", authMethod := "password",
        sshPassword := "", sshPrivateKey := "", sshKeyPassphrase := "",
        remoteHost := "r", remotePort := 9090 }
      = .error "failed to build auth methods: no authentication method configured" ∧
    NewTunnelM (fun _ _ => .error "ssh: no key found") none none
      { sshHost := "h", sshPort := 22, sshUsername := "u", authMethod := "key",
        sshPassword := "", sshPrivateKey := "garbage", sshKeyPassphrase := "",
        remoteHost := "r", remotePort := 9090 }
      = .error ("failed to build auth methods: failed to parse private key: "
          ++ "ssh: no key found") := by
  constructor
  · exact (newTunnel_auth_failure (fun _ _ => .error "ssh: no key found") none none _).1 rfl rfl
  · exact (newTunnel_auth_failure (fun _ _ => .error "ssh: no key found") none none _).2.2.1
      "ssh: no key found" (by decide) (by decide) rfl
